import Mathlib

/-!
Verification of the nginx-k8s-loadbalancer core against its specification.

Part 1 — ConfigSync (src/internal/configuration/settings.go):
the ConfigMap watch handlers `handleAddEvent`, `handleUpdateEvent`,
`handleDeleteEvent` and the helpers `parseHosts` and `updateHosts`.
The mutable field `Settings.NginxPlusHosts` is embedded as explicit
state passing: each handler maps the prior host list to the new one.
A Go `obj interface{}` event payload is embedded as `Option ConfigMap`:
`none` is a payload for which the type assertion `obj.(*corev1.ConfigMap)`
fails, `some cm` a payload that converts.

Part 2 — TrustFactory (src/internal/authentication/factory.go):
`NewTlsConfig` and its builders.  The Go standard-library crypto
primitives (`pem.Decode`, `x509.ParseCertificate`, `tls.X509KeyPair`)
are external to the repository and are embedded as an abstract record
of functions (`CryptoPrims`) that the factory is parameterised over.
-/

namespace NKL

/-- Embedding of a Kubernetes `corev1.ConfigMap` restricted to what the
source reads: its `Data` map, represented as an association list. -/
structure ConfigMap where
  data : List (String × String)
deriving Repr, DecidableEq

/-- Embedding of Go `strings.Split(s, sep)` for a single-character
separator, on the character list of the string: splits around every
instance of `sep`; the empty input yields one empty field. -/
def splitCharList (sep : Char) : List Char → List (List Char)
  | [] => [[]]
  | c :: cs =>
    if c = sep then
      [] :: splitCharList sep cs
    else
      match splitCharList sep cs with
      | [] => [[c]]
      | w :: ws => (c :: w) :: ws

/-- Source `Settings.parseHosts`: `strings.Split(hosts, ",")`. -/
def parseHosts (hosts : String) : List String :=
  (splitCharList ',' hosts.data).map List.asString

/-- Source `Settings.updateHosts`: overwrites `s.NginxPlusHosts` with the
new list, ignoring the prior state. -/
def updateHosts (hosts : List String) (_prior : List String) : List String :=
  hosts

/-- Source `Settings.handleUpdateEvent`: the type assertion to
`*corev1.ConfigMap` failing, or the `"nginx-hosts"` key being absent,
logs and returns with the state untouched; otherwise the state is
replaced by `parseHosts` of the value.  The second parameter (the prior
object) is ignored by the source (`_ interface{}`). -/
def handleUpdateEvent (obj : Option ConfigMap) (_oldObj : Option ConfigMap)
    (prior : List String) : List String :=
  match obj with
  | none => prior
  | some configMap =>
    match configMap.data.lookup "nginx-hosts" with
    | none => prior
    | some hosts => updateHosts (parseHosts hosts) prior

/-- Source `Settings.handleAddEvent`: delegates to
`handleUpdateEvent(obj, nil)`. -/
def handleAddEvent (obj : Option ConfigMap) (prior : List String) : List String :=
  handleUpdateEvent obj none prior

/-- Source `Settings.handleDeleteEvent`: `updateHosts([]string{})`,
ignoring the payload. -/
def handleDeleteEvent (_obj : Option ConfigMap) (prior : List String) : List String :=
  updateHosts [] prior

/-- A watch-stream event as dispatched by the informer registration in
`initializeEventListeners`: Added and Updated carry the (possibly
unconvertible) payload, Deleted carries a payload the handler ignores. -/
inductive WatchEvent where
  | added : Option ConfigMap → WatchEvent
  | updated : Option ConfigMap → Option ConfigMap → WatchEvent
  | deleted : Option ConfigMap → WatchEvent
deriving Repr, DecidableEq

/-- Dispatch of one event to the registered handler. -/
def applyEvent (st : List String) : WatchEvent → List String
  | .added obj => handleAddEvent obj st
  | .updated obj oldObj => handleUpdateEvent obj oldObj st
  | .deleted obj => handleDeleteEvent obj st

/-- Serial delivery of a sequence of events. -/
def runEvents (st : List String) (evts : List WatchEvent) : List String :=
  evts.foldl applyEvent st

/-- An add/update payload is accepted when it converts to a ConfigMap
whose data has the `"nginx-hosts"` key. -/
def acceptedPayload (obj : Option ConfigMap) : Bool :=
  (obj.bind (fun cm => cm.data.lookup "nginx-hosts")).isSome

/-- An event replaces the host list when it is a delete, or an
add/update with an accepted payload. -/
def replacingEvent : WatchEvent → Bool
  | .added obj => acceptedPayload obj
  | .updated obj _ => acceptedPayload obj
  | .deleted _ => true

/-- Recogniser for delete events. -/
def isDeleteEvent : WatchEvent → Bool
  | .deleted _ => true
  | _ => false

/-! ### Basic lemmas about the split and the handlers -/

theorem splitCharList_ne_nil (sep : Char) (l : List Char) :
    splitCharList sep l ≠ [] := by
  induction l with
  | nil => simp [splitCharList]
  | cons c cs ih =>
    simp only [splitCharList]
    split
    · simp
    · cases h : splitCharList sep cs with
      | nil => simp
      | cons w ws => simp

theorem parseHosts_ne_nil (s : String) : parseHosts s ≠ [] := by
  simp only [parseHosts, ne_eq, List.map_eq_nil_iff]
  exact splitCharList_ne_nil ',' s.data

theorem handleUpdateEvent_of_lookup (cm : ConfigMap) (oldObj : Option ConfigMap)
    (prior : List String) (s : String)
    (h : cm.data.lookup "nginx-hosts" = some s) :
    handleUpdateEvent (some cm) oldObj prior = parseHosts s := by
  simp [handleUpdateEvent, h, updateHosts]

theorem handleUpdateEvent_not_accepted (obj : Option ConfigMap)
    (oldObj : Option ConfigMap) (prior : List String)
    (h : acceptedPayload obj = false) :
    handleUpdateEvent obj oldObj prior = prior := by
  cases obj with
  | none => rfl
  | some cm =>
    cases hl : cm.data.lookup "nginx-hosts" with
    | none => simp [handleUpdateEvent, hl]
    | some s =>
      simp [acceptedPayload, hl] at h

theorem applyEvent_not_replacing (st : List String) (e : WatchEvent)
    (h : replacingEvent e = false) : applyEvent st e = st := by
  cases e with
  | added obj =>
    exact handleUpdateEvent_not_accepted obj none st h
  | updated obj oldObj =>
    exact handleUpdateEvent_not_accepted obj oldObj st h
  | deleted obj => simp [replacingEvent] at h

theorem applyEvent_replacing_ne_nil (st : List String) (e : WatchEvent)
    (hr : replacingEvent e = true) (hd : isDeleteEvent e = false) :
    applyEvent st e ≠ [] := by
  cases e with
  | added obj =>
    cases obj with
    | none => simp [replacingEvent, acceptedPayload] at hr
    | some cm =>
      cases hl : cm.data.lookup "nginx-hosts" with
      | none => simp [replacingEvent, acceptedPayload, hl] at hr
      | some s =>
        simp only [applyEvent, handleAddEvent,
          handleUpdateEvent_of_lookup cm none st s hl]
        exact parseHosts_ne_nil s
  | updated obj oldObj =>
    cases obj with
    | none => simp [replacingEvent, acceptedPayload] at hr
    | some cm =>
      cases hl : cm.data.lookup "nginx-hosts" with
      | none => simp [replacingEvent, acceptedPayload, hl] at hr
      | some s =>
        simp only [applyEvent,
          handleUpdateEvent_of_lookup cm oldObj st s hl]
        exact parseHosts_ne_nil s
  | deleted obj => simp [isDeleteEvent] at hd

theorem runEvents_all_not_replacing (st : List String) (evts : List WatchEvent)
    (h : ∀ e ∈ evts, replacingEvent e = false) : runEvents st evts = st := by
  induction evts generalizing st with
  | nil => rfl
  | cons e rest ih =>
    have he : replacingEvent e = false := h e (List.mem_cons_self e rest)
    have hrest : ∀ e' ∈ rest, replacingEvent e' = false :=
      fun e' he' => h e' (List.mem_cons_of_mem e he')
    simp only [runEvents, List.foldl_cons, applyEvent_not_replacing st e he]
    exact ih st hrest

theorem runEvents_empty_structure (evts : List WatchEvent) (st : List String)
    (h : runEvents st evts = []) :
    (∀ e ∈ evts, replacingEvent e = false) ∨
      ∃ pre d post, evts = pre ++ d :: post ∧ isDeleteEvent d = true ∧
        ∀ e ∈ post, replacingEvent e = false := by
  induction evts using List.reverseRecOn with
  | nil => exact Or.inl (by simp)
  | append_singleton rest e ih =>
    have hsplit : runEvents st (rest ++ [e]) = applyEvent (runEvents st rest) e := by
      simp [runEvents, List.foldl_append]
    rw [hsplit] at h
    cases hre : replacingEvent e with
    | false =>
      rw [applyEvent_not_replacing _ e hre] at h
      cases ih h with
      | inl hall =>
        refine Or.inl ?_
        intro e' he'
        rcases List.mem_append.mp he' with h1 | h1
        · exact hall e' h1
        · rw [List.mem_singleton.mp h1]; exact hre
      | inr hex =>
        obtain ⟨pre, d, post, heq, hdel, hpost⟩ := hex
        refine Or.inr ⟨pre, d, post ++ [e], ?_, hdel, ?_⟩
        · rw [heq]; simp
        · intro e' he'
          rcases List.mem_append.mp he' with h1 | h1
          · exact hpost e' h1
          · rw [List.mem_singleton.mp h1]; exact hre
    | true =>
      cases hde : isDeleteEvent e with
      | false =>
        exact absurd h (applyEvent_replacing_ne_nil _ e hre hde)
      | true =>
        exact Or.inr ⟨rest, e, [], by simp, hde, by simp⟩

/-!
## Part 2 — TrustFactory (src/internal/authentication/factory.go)

Bytes on the wire are embedded as `List Nat`.  The certificate bundle
type `certification.Certificates` lives in a repository package that is
not under src/, so it is modelled from the spec.
-/

/-- Modelled from the spec: `certification.Certificates` (package
internal/certification, not under src/) — a CertificateBundle holding a
CA certificate (PEM), a client certificate (PEM) and a client private
key (PEM); the factory only reads it through the two getters below. -/
structure Certificates where
  caCertificate : List Nat
  clientCertificate : List Nat
  clientKey : List Nat
deriving Repr, DecidableEq

/-- Modelled from the spec: getter for the CA certificate PEM bytes. -/
def Certificates.GetCACertificate (c : Certificates) : List Nat :=
  c.caCertificate

/-- Modelled from the spec: getter returning the client key PEM and the
client certificate PEM, in the order `buildCertificates` consumes them
(`privateKeyPEM`, `certificatePEM`). -/
def Certificates.GetClientCertificate (c : Certificates) : List Nat × List Nat :=
  (c.clientKey, c.clientCertificate)

/-- Embedding of Go `pem.Block` restricted to what the source reads:
the decoded DER bytes. -/
structure PemBlock where
  blockType : String
  bytes : List Nat
deriving Repr, DecidableEq

/-- Result of `x509.ParseCertificate`; its content is never inspected
by the factory, only stored, so it is kept as an inert wrapper of the
DER bytes. -/
structure X509Cert where
  raw : List Nat
deriving Repr, DecidableEq

/-- Result of `tls.X509KeyPair`: one client identity. -/
structure TlsCertificate where
  raw : List Nat
deriving Repr, DecidableEq

/-- The Go standard-library crypto primitives the factory calls.  They
are external to the repository, so the factory is parameterised over
them: `pemDecode` returns the first PEM block or `none` (the source
discards the rest of `pem.Decode`'s pair), `parseCertificate` and
`x509KeyPair` return a value or an error message. -/
structure CryptoPrims where
  pemDecode : List Nat → Option PemBlock
  parseCertificate : List Nat → Except String X509Cert
  x509KeyPair : (certPEM : List Nat) → (keyPEM : List Nat) → Except String TlsCertificate

/-- Embedding of Go `tls.Config` restricted to the fields the source
sets: `InsecureSkipVerify`, `RootCAs` (`none` is the Go nil pool, i.e.
the system default trust roots) and `Certificates` (the Go zero value
is the empty list). -/
structure TlsConfig where
  insecureSkipVerify : Bool
  rootCAs : Option (List X509Cert)
  certificates : List TlsCertificate
deriving Repr, DecidableEq

/-- The two fields of `configuration.Settings` the factory reads.
`TlsMode` and `Certificates` are referenced by factory.go but absent
from the `Settings` struct under src/; modelled from the spec: the
trust-mode string literal and the certificate bundle, supplied via
external configuration. -/
structure TlsSettings where
  tlsMode : String
  certificates : Certificates

/-- Source `buildCaCertificatePool`: decode one PEM block (error if
none), parse it as a certificate (wrapped error on failure), and return
a fresh pool containing exactly that certificate. -/
def buildCaCertificatePool (p : CryptoPrims) (caCert : List Nat) :
    Except String (List X509Cert) :=
  match p.pemDecode caCert with
  | none => .error "failed to decode PEM block containing CA certificate"
  | some block =>
    match p.parseCertificate block.bytes with
    | .error err => .error ("error parsing certificate: " ++ err)
    | .ok cert => .ok [cert]

/-- Source `buildCertificates(privateKeyPEM, certificatePEM)`:
`tls.X509KeyPair(certificatePEM, privateKeyPEM)`. -/
def buildCertificates (p : CryptoPrims) (privateKeyPEM certificatePEM : List Nat) :
    Except String TlsCertificate :=
  p.x509KeyPair certificatePEM privateKeyPEM

/-- Source `buildBasicTlsConfig(skipVerify)`: only
`InsecureSkipVerify` is set; the other fields keep their zero values. -/
def buildBasicTlsConfig (skipVerify : Bool) : TlsConfig :=
  { insecureSkipVerify := skipVerify, rootCAs := none, certificates := [] }

/-- Source `buildSelfSignedTlsConfig`: CA pool from the bundle's CA
certificate, errors propagated, `InsecureSkipVerify` false. -/
def buildSelfSignedTlsConfig (p : CryptoPrims) (certificates : Certificates) :
    Except String TlsConfig :=
  match buildCaCertificatePool p certificates.GetCACertificate with
  | .error e => .error e
  | .ok certPool =>
    .ok { insecureSkipVerify := false, rootCAs := some certPool, certificates := [] }

/-- Source `buildSelfSignedMtlsConfig`: CA pool first, then the client
key pair; either error is propagated before any config is built. -/
def buildSelfSignedMtlsConfig (p : CryptoPrims) (certificates : Certificates) :
    Except String TlsConfig :=
  match buildCaCertificatePool p certificates.GetCACertificate with
  | .error e => .error e
  | .ok certPool =>
    match buildCertificates p certificates.GetClientCertificate.1
        certificates.GetClientCertificate.2 with
    | .error e => .error e
    | .ok certificate =>
      .ok { insecureSkipVerify := false, rootCAs := some certPool,
            certificates := [certificate] }

/-- Source `buildCaTlsConfig`: client key pair only; system trust roots
(nil `RootCAs`). -/
def buildCaTlsConfig (p : CryptoPrims) (certificates : Certificates) :
    Except String TlsConfig :=
  match buildCertificates p certificates.GetClientCertificate.1
      certificates.GetClientCertificate.2 with
  | .error e => .error e
  | .ok certificate =>
    .ok { insecureSkipVerify := false, rootCAs := none,
          certificates := [certificate] }

/-- Source `NewTlsConfig`: dispatch on `settings.TlsMode`; the default
branch of the switch behaves as `no-tls`. -/
def NewTlsConfig (p : CryptoPrims) (settings : TlsSettings) :
    Except String TlsConfig :=
  if settings.tlsMode = "ss-tls" then
    buildSelfSignedTlsConfig p settings.certificates
  else if settings.tlsMode = "ss-mtls" then
    buildSelfSignedMtlsConfig p settings.certificates
  else if settings.tlsMode = "ca-tls" then
    .ok (buildBasicTlsConfig false)
  else if settings.tlsMode = "ca-mtls" then
    buildCaTlsConfig p settings.certificates
  else
    .ok (buildBasicTlsConfig true)

/-! ### Concrete crypto primitives for evaluating the factory -/

/-- Primitives on which every decode fails: junk bytes yield no PEM
block, no certificate and no key pair. -/
def failPrims : CryptoPrims where
  pemDecode := fun _ => none
  parseCertificate := fun _ => .error "asn1 syntax error"
  x509KeyPair := fun _ _ => .error "tls: private key does not match public key"

/-- Primitives on which PEM decoding succeeds but certificate parsing
and key pairing fail. -/
def parseFailPrims : CryptoPrims where
  pemDecode := fun bs => some { blockType := "CERTIFICATE", bytes := bs }
  parseCertificate := fun _ => .error "asn1 syntax error"
  x509KeyPair := fun _ _ => .error "tls: private key does not match public key"

/-- Primitives on which decoding and parsing succeed but the client
certificate and key mismatch. -/
def mismatchPrims : CryptoPrims where
  pemDecode := fun bs => some { blockType := "CERTIFICATE", bytes := bs }
  parseCertificate := fun bs => .ok { raw := bs }
  x509KeyPair := fun _ _ => .error "tls: private key does not match public key"

/-- Primitives on which everything succeeds. -/
def okPrims : CryptoPrims where
  pemDecode := fun bs => some { blockType := "CERTIFICATE", bytes := bs }
  parseCertificate := fun bs => .ok { raw := bs }
  x509KeyPair := fun certPEM keyPEM => .ok { raw := certPEM ++ keyPEM }

/-- A sample certificate bundle. -/
def sampleBundle : Certificates where
  caCertificate := [1, 2, 3]
  clientCertificate := [4, 5, 6]
  clientKey := [7, 8, 9]

/-! ## Claim theorems -/

/-- C1: for every string `s`, `handleUpdateEvent` on a ConfigMap whose
data binds `"nginx-hosts"` to `s` replaces the host list with the split
of `s` on `","` — no trimming, no deduplication, no per-host
validation — and for `s = ""` the result is `[""]`, not `[]`. -/
theorem claim1_update_splits_hosts (cm : ConfigMap) (oldObj : Option ConfigMap)
    (prior : List String) (s : String)
    (h : cm.data.lookup "nginx-hosts" = some s) :
    handleUpdateEvent (some cm) oldObj prior
      = (splitCharList ',' s.data).map List.asString ∧
    (s = "" → handleUpdateEvent (some cm) oldObj prior = [""]) := by
  have h1 := handleUpdateEvent_of_lookup cm oldObj prior s h
  refine ⟨h1, ?_⟩
  intro hs
  subst hs
  rw [h1]
  rfl

theorem claim1_witness :
    handleUpdateEvent (some ⟨[("nginx-hosts", "10.0.0.1:9000, 10.0.0.2:9000")]⟩)
      none ["old"] = ["10.0.0.1:9000", " 10.0.0.2:9000"] ∧
    handleUpdateEvent (some ⟨[("nginx-hosts", "")]⟩) none ["old"] = [""] := by
  constructor
  · rw [(claim1_update_splits_hosts ⟨[("nginx-hosts", "10.0.0.1:9000, 10.0.0.2:9000")]⟩
      none ["old"] "10.0.0.1:9000, 10.0.0.2:9000" rfl).1]
    rfl
  · exact (claim1_update_splits_hosts ⟨[("nginx-hosts", "")]⟩
      none ["old"] "" rfl).2 rfl

/-- C2: `NewTlsConfig` in mode `"no-tls"` returns, for every bundle and
without error, the config with verification skipped, no trust roots and
no client identity; and every unrecognised mode falls into the same
default branch. -/
theorem claim2_no_tls_and_default_branch (p : CryptoPrims) (certs : Certificates)
    (mode : String) (h1 : mode ≠ "ss-tls") (h2 : mode ≠ "ss-mtls")
    (h3 : mode ≠ "ca-tls") (h4 : mode ≠ "ca-mtls") :
    NewTlsConfig p { tlsMode := "no-tls", certificates := certs }
      = .ok { insecureSkipVerify := true, rootCAs := none, certificates := [] } ∧
    NewTlsConfig p { tlsMode := mode, certificates := certs }
      = .ok { insecureSkipVerify := true, rootCAs := none, certificates := [] } := by
  constructor
  · rfl
  · simp [NewTlsConfig, h1, h2, h3, h4, buildBasicTlsConfig]

theorem claim2_witness :
    NewTlsConfig failPrims { tlsMode := "no-tls", certificates := sampleBundle }
      = .ok { insecureSkipVerify := true, rootCAs := none, certificates := [] } ∧
    NewTlsConfig failPrims { tlsMode := "tls-typo", certificates := sampleBundle }
      = .ok { insecureSkipVerify := true, rootCAs := none, certificates := [] } :=
  claim2_no_tls_and_default_branch failPrims sampleBundle "tls-typo"
    (by decide) (by decide) (by decide) (by decide)

/-- C3: `buildCaCertificatePool` fails with the invalid-PEM error when
no PEM block decodes, fails with the wrapped parse error when the block
is not a well-formed certificate, and otherwise returns a pool holding
exactly that one certificate; and `NewTlsConfig` in mode `"ss-tls"` on
a bundle whose CA PEM is malformed returns that error and no partial
configuration (the error constructor carries no config). -/
theorem claim3_ca_pool_errors (p : CryptoPrims) :
    (∀ ca, p.pemDecode ca = none →
      buildCaCertificatePool p ca
        = .error "failed to decode PEM block containing CA certificate") ∧
    (∀ ca block err, p.pemDecode ca = some block →
      p.parseCertificate block.bytes = .error err →
      buildCaCertificatePool p ca = .error ("error parsing certificate: " ++ err)) ∧
    (∀ ca block cert, p.pemDecode ca = some block →
      p.parseCertificate block.bytes = .ok cert →
      buildCaCertificatePool p ca = .ok [cert]) ∧
    (∀ certs : Certificates, p.pemDecode certs.GetCACertificate = none →
      NewTlsConfig p { tlsMode := "ss-tls", certificates := certs }
        = .error "failed to decode PEM block containing CA certificate") := by
  refine ⟨?_, ?_, ?_, ?_⟩
  · intro ca hd
    simp [buildCaCertificatePool, hd]
  · intro ca block err hd hp
    simp [buildCaCertificatePool, hd, hp]
  · intro ca block cert hd hp
    simp [buildCaCertificatePool, hd, hp]
  · intro certs hd
    simp [NewTlsConfig, buildSelfSignedTlsConfig, buildCaCertificatePool, hd]

theorem claim3_witness :
    buildCaCertificatePool failPrims [1, 2, 3]
      = .error "failed to decode PEM block containing CA certificate" ∧
    buildCaCertificatePool parseFailPrims [1, 2, 3]
      = .error "error parsing certificate: asn1 syntax error" ∧
    buildCaCertificatePool okPrims [1, 2, 3] = .ok [{ raw := [1, 2, 3] }] ∧
    NewTlsConfig failPrims { tlsMode := "ss-tls", certificates := sampleBundle }
      = .error "failed to decode PEM block containing CA certificate" :=
  ⟨(claim3_ca_pool_errors failPrims).1 [1, 2, 3] rfl,
   (claim3_ca_pool_errors parseFailPrims).2.1 [1, 2, 3]
     { blockType := "CERTIFICATE", bytes := [1, 2, 3] } "asn1 syntax error" rfl rfl,
   (claim3_ca_pool_errors okPrims).2.2.1 [1, 2, 3]
     { blockType := "CERTIFICATE", bytes := [1, 2, 3] } { raw := [1, 2, 3] } rfl rfl,
   (claim3_ca_pool_errors failPrims).2.2.2 sampleBundle rfl⟩

/-- C4 counterexample: it is not true that every bundle whose client
certificate and key mismatch makes `NewTlsConfig` in mode `"ss-mtls"`
return the key-pair error — a bundle whose CA PEM is also malformed
returns the invalid-PEM error instead, because the CA pool is built
first. -/
theorem claim4_counterexample :
    ¬ (∀ (p : CryptoPrims) (certs : Certificates) (err : String),
        p.x509KeyPair certs.clientCertificate certs.clientKey = .error err →
        NewTlsConfig p { tlsMode := "ss-mtls", certificates := certs }
          = .error err) := by
  intro hclaim
  have h := hclaim failPrims sampleBundle
    "tls: private key does not match public key" rfl
  have h2 : NewTlsConfig failPrims { tlsMode := "ss-mtls", certificates := sampleBundle }
      = .error "failed to decode PEM block containing CA certificate" := rfl
  rw [h2] at h
  simp at h

/-- C4 amended: for every bundle whose CA certificate builds a trust
pool successfully and whose client certificate and key mismatch,
`NewTlsConfig` in mode `"ss-mtls"` returns exactly the key-pair error
propagated from the key-pair parser, and no configuration (the error
constructor carries none). -/
theorem claim4_amended_mismatch_error (p : CryptoPrims) (certs : Certificates)
    (pool : List X509Cert) (err : String)
    (hca : buildCaCertificatePool p certs.GetCACertificate = .ok pool)
    (hkp : p.x509KeyPair certs.clientCertificate certs.clientKey = .error err) :
    NewTlsConfig p { tlsMode := "ss-mtls", certificates := certs }
      = .error err := by
  simp [NewTlsConfig, buildSelfSignedMtlsConfig, hca, buildCertificates,
    Certificates.GetClientCertificate, hkp]

theorem claim4_witness :
    NewTlsConfig mismatchPrims { tlsMode := "ss-mtls", certificates := sampleBundle }
      = .error "tls: private key does not match public key" :=
  claim4_amended_mismatch_error mismatchPrims sampleBundle
    [{ raw := [1, 2, 3] }] "tls: private key does not match public key" rfl rfl

/-- C5: an event whose payload does not convert to a ConfigMap, or
whose data lacks the `"nginx-hosts"` key, leaves the host list exactly
equal to its prior value; the handler is total and returns no error
(the Go callback has no error result — the condition is logged and
discarded). -/
theorem claim5_discard_keeps_hosts (obj oldObj : Option ConfigMap)
    (prior : List String)
    (h : obj = none ∨ ∃ cm, obj = some cm ∧ cm.data.lookup "nginx-hosts" = none) :
    handleUpdateEvent obj oldObj prior = prior := by
  rcases h with h | ⟨cm, rfl, hl⟩
  · subst h
    rfl
  · simp [handleUpdateEvent, hl]

theorem claim5_witness :
    handleUpdateEvent none none ["10.0.0.1"] = ["10.0.0.1"] ∧
    handleUpdateEvent (some ⟨[("other-key", "v")]⟩) none ["10.0.0.1"]
      = ["10.0.0.1"] :=
  ⟨claim5_discard_keeps_hosts none none ["10.0.0.1"] (Or.inl rfl),
   claim5_discard_keeps_hosts (some ⟨[("other-key", "v")]⟩) none ["10.0.0.1"]
     (Or.inr ⟨⟨[("other-key", "v")]⟩, rfl, rfl⟩)⟩

/-- C6: `handleDeleteEvent` replaces the host list with the empty
sequence, for every payload and every prior state. -/
theorem claim6_delete_clears_hosts (obj : Option ConfigMap) (prior : List String) :
    handleDeleteEvent obj prior = [] :=
  rfl

/-- C7: `handleAddEvent obj` is extensionally equal to
`handleUpdateEvent obj none` on every payload and prior state. -/
theorem claim7_add_eq_update_nil (obj : Option ConfigMap) (prior : List String) :
    handleAddEvent obj prior = handleUpdateEvent obj none prior :=
  rfl

/-- C8: for every bundle whose client certificate and key form a valid
pair, `NewTlsConfig` in mode `"ca-mtls"` returns without error the
config with the client identity attached, nil root pool (system default
trust roots) and verification-skip false. -/
theorem claim8_ca_mtls_config (p : CryptoPrims) (certs : Certificates)
    (c : TlsCertificate)
    (hkp : p.x509KeyPair certs.clientCertificate certs.clientKey = .ok c) :
    NewTlsConfig p { tlsMode := "ca-mtls", certificates := certs }
      = .ok { insecureSkipVerify := false, rootCAs := none, certificates := [c] } := by
  simp [NewTlsConfig, buildCaTlsConfig, buildCertificates,
    Certificates.GetClientCertificate, hkp]

theorem claim8_witness :
    NewTlsConfig okPrims { tlsMode := "ca-mtls", certificates := sampleBundle }
      = .ok { insecureSkipVerify := false, rootCAs := none,
              certificates := [{ raw := [4, 5, 6, 7, 8, 9] }] } :=
  claim8_ca_mtls_config okPrims sampleBundle { raw := [4, 5, 6, 7, 8, 9] } rfl

/-- C10: splitting any string on `","` yields at least one element, so
an accepted add or update installs a non-empty list; consequently over
any delivered event sequence, a final empty host list means either no
event replaced the list (the state is the initial one) or the most
recent replacing event was a delete. -/
theorem claim10_empty_only_after_delete :
    (∀ s : String, parseHosts s ≠ []) ∧
    (∀ (obj oldObj : Option ConfigMap) (prior : List String),
      acceptedPayload obj = true →
      handleUpdateEvent obj oldObj prior ≠ [] ∧ handleAddEvent obj prior ≠ []) ∧
    (∀ (evts : List WatchEvent) (st : List String), runEvents st evts = [] →
      ((∀ e ∈ evts, replacingEvent e = false) ∧ runEvents st evts = st) ∨
      ∃ pre d post, evts = pre ++ d :: post ∧ isDeleteEvent d = true ∧
        ∀ e ∈ post, replacingEvent e = false) := by
  refine ⟨parseHosts_ne_nil, ?_, ?_⟩
  · intro obj oldObj prior hacc
    cases obj with
    | none => simp [acceptedPayload] at hacc
    | some cm =>
      cases hl : cm.data.lookup "nginx-hosts" with
      | none => simp [acceptedPayload, hl] at hacc
      | some s =>
        refine ⟨?_, ?_⟩
        · rw [handleUpdateEvent_of_lookup cm oldObj prior s hl]
          exact parseHosts_ne_nil s
        · rw [handleAddEvent, handleUpdateEvent_of_lookup cm none prior s hl]
          exact parseHosts_ne_nil s
  · intro evts st h
    cases runEvents_empty_structure evts st h with
    | inl hall =>
      exact Or.inl ⟨hall, runEvents_all_not_replacing st evts hall⟩
    | inr hex => exact Or.inr hex

theorem claim10_witness :
    parseHosts "" ≠ [] ∧
    handleUpdateEvent (some ⟨[("nginx-hosts", "")]⟩) none [] ≠ [] ∧
    (((∀ e ∈ [WatchEvent.deleted (none : Option ConfigMap)],
        replacingEvent e = false) ∧
      runEvents ["10.0.0.1"] [WatchEvent.deleted none] = ["10.0.0.1"]) ∨
      ∃ pre d post,
        [WatchEvent.deleted (none : Option ConfigMap)] = pre ++ d :: post ∧
        isDeleteEvent d = true ∧ ∀ e ∈ post, replacingEvent e = false) :=
  ⟨claim10_empty_only_after_delete.1 "",
   (claim10_empty_only_after_delete.2.1 (some ⟨[("nginx-hosts", "")]⟩) none [] rfl).1,
   claim10_empty_only_after_delete.2.2 [WatchEvent.deleted none] ["10.0.0.1"] rfl⟩

end NKL
